import Mathlib

/-!
Shallow embedding of `src/backend_pgsql.c` (pam-pgsql): the query-template
expander `expand_query`, the scheme dispatcher `password_encrypt`, the salt
generator `crypt_makesalt` with its radix-64 conversion `i64c`, the PBKDF2
wrapper `calc_PBKDF2_HMAC_SHA256`, and the orchestration in `pg_execParam`
and `backend_authenticate`.

External collaborators (libpq, libc `crypt`, libgcrypt digests, OpenSSL
`PKCS5_PBKDF2_HMAC`) are modelled as an explicit environment of functions
(`ExtFns`) and an explicit store environment (`DbEnv`); the repository's own
code is translated line by line.
-/

/-- The password schemes of `pam_pgsql.h` — the closed set the dispatch in
`password_encrypt` branches over. -/
inductive pw_scheme where
  | PW_CRYPT
  | PW_CRYPT_MD5
  | PW_CRYPT_SHA512
  | PW_MD5
  | PW_MD5_POSTGRES
  | PW_SHA1
  | PW_CLEAR
  | PW_FUNCTION
  | PW_PBKDF2
deriving DecidableEq, Repr

/-- The slice of `modopt_t` the authentication path reads: the configured
scheme and the authentication query template (`NULL` possible). -/
structure modopt_t where
  pw_type : pw_scheme
  query_auth : Option String
deriving DecidableEq, Repr

/-- The four PAM outcome codes `backend_authenticate` can return:
PAM_SUCCESS, PAM_USER_UNKNOWN, PAM_AUTH_ERR, PAM_AUTHINFO_UNAVAIL. -/
inductive Outcome where
  | success
  | userUnknown
  | authErr
  | authinfoUnavail
deriving DecidableEq, Repr

/-- One result row: column 0 is the stored password (SQL NULL possible),
column 1 the optional stored salt (SQL NULL possible). -/
structure DbRow where
  col0 : Option String
  col1 : Option String
deriving DecidableEq, Repr

/-- The external library functions the C file calls: libc `crypt` (which may
return NULL), libgcrypt MD5/SHA1 digests over byte strings, OpenSSL
`PKCS5_PBKDF2_HMAC` with SHA-256 digest, and the `random()` stream consumed
by `crypt_makesalt` (`rand k` is the k-th draw). The digest functions return
byte values (each below 256). -/
structure ExtFns where
  crypt : String → String → Option String
  md5 : List Nat → List Nat
  sha1 : List Nat → List Nat
  pbkdf2 : List Nat → List Nat → Nat → Nat → List Nat
  rand : Nat → Nat

/-- The store environment of one authentication attempt: whether
`PQconnectdb` reaches CONNECTION_OK, what `gethostbyname`/`inet_ntop`
resolve the remote host to (`raddr`, NULL when resolution fails), and the
result of `PQexecParams` (`none` = result status neither COMMAND_OK nor
TUPLES_OK). -/
structure DbEnv where
  conn : Bool
  dns : Option String
  exec : Option (List DbRow)

/-- The five runtime values `expand_query` substitutes: service, user,
password, remote host, and the resolved address (NULL possible). -/
structure SubstVals where
  service : String
  user : String
  passwd : String
  rhost : String
  raddr : Option String

/-- The text `sprintf(q, "$%i", nparm)` writes for a placeholder index. -/
def dollarTok (n : Nat) : List Char :=
  '$' :: Nat.toDigits 10 n

/-- The length pre-scan of `expand_query` (first `for` loop): `%u`, `%p`,
`%s` reserve 4 bytes each (the comment says 128 tokens max), `%%` reserves
1 byte, and any other character — including the `%` of `%h` and `%i`, which
the scan does not recognize — counts 1 byte. -/
def scanLen : List Char → Nat
  | [] => 0
  | '%' :: 'u' :: rest => 4 + scanLen rest
  | '%' :: 'p' :: rest => 4 + scanLen rest
  | '%' :: 's' :: rest => 4 + scanLen rest
  | '%' :: '%' :: rest => 1 + scanLen rest
  | _ :: rest => 1 + scanLen rest

/-- The fill pass of `expand_query` (second `for` loop), returning the query
text and the prefix of `values[]` written, or `none` when the pass aborts
(`*command = NULL`): the abort happens in the `%i` case when `raddr` is NULL
and `strchr(rhost, '.')` finds a dot (the C binds the value and writes the
placeholder first, then frees everything and aborts; only the net effect is
observable). A recognized token writes `$nparm` after `++nparm` and stores
the value at `values[nparm-1]`; `%` followed by anything else (`%%`
included) drops the `%` and copies the following character. A terminal `%`
makes the C write the terminator and read past the end of the template
(undefined behavior); the model stops there. -/
def expandFill (v : SubstVals) : List Char → Nat → Option (List Char × List (Option String))
  | '%' :: 'u' :: rest, n =>
      (expandFill v rest (n + 1)).map fun qp => (dollarTok (n + 1) ++ qp.1, some v.user :: qp.2)
  | '%' :: 'p' :: rest, n =>
      (expandFill v rest (n + 1)).map fun qp => (dollarTok (n + 1) ++ qp.1, some v.passwd :: qp.2)
  | '%' :: 's' :: rest, n =>
      (expandFill v rest (n + 1)).map fun qp => (dollarTok (n + 1) ++ qp.1, some v.service :: qp.2)
  | '%' :: 'h' :: rest, n =>
      (expandFill v rest (n + 1)).map fun qp => (dollarTok (n + 1) ++ qp.1, some v.rhost :: qp.2)
  | '%' :: 'i' :: rest, n =>
      if v.raddr = none ∧ '.' ∈ v.rhost.data then none
      else (expandFill v rest (n + 1)).map fun qp => (dollarTok (n + 1) ++ qp.1, v.raddr :: qp.2)
  | '%' :: c :: rest, n =>
      (expandFill v rest n).map fun qp => (c :: qp.1, qp.2)
  | ['%'], _ => some ([], [])
  | c :: rest, n =>
      (expandFill v rest n).map fun qp => (c :: qp.1, qp.2)
  | [], _ => some ([], [])

/-- `expand_query` as observed by its caller: a NULL template yields
`*command = NULL` (the malloc-failure path, also `*command = NULL`, is not
modelled), otherwise the fill pass runs with `nparm = 0`. -/
def expand_query (v : SubstVals) : Option String → Option (List Char × List (Option String))
  | none => none
  | some q => expandFill v q.data 0

/-- The token kinds of the template mini-language. -/
inductive QTok where
  | tu
  | tp
  | ts
  | th
  | ti
deriving DecidableEq, Repr

/-- The value a token binds: `%u` the user, `%p` the password, `%s` the
service, `%h` the remote host, `%i` the resolved address (NULL possible). -/
def tokVal (v : SubstVals) : QTok → Option String
  | .tu => some v.user
  | .tp => some v.passwd
  | .ts => some v.service
  | .th => some v.rhost
  | .ti => v.raddr

/-- The recognized token occurrences of a template, in textual
(first-seen) order, following exactly the fill pass's consumption. -/
def qtokens : List Char → List QTok
  | '%' :: 'u' :: rest => .tu :: qtokens rest
  | '%' :: 'p' :: rest => .tp :: qtokens rest
  | '%' :: 's' :: rest => .ts :: qtokens rest
  | '%' :: 'h' :: rest => .th :: qtokens rest
  | '%' :: 'i' :: rest => .ti :: qtokens rest
  | '%' :: _ :: rest => qtokens rest
  | ['%'] => []
  | _ :: rest => qtokens rest
  | [] => []

/-- The query text the fill pass produces, as a function of the template and
the running placeholder counter alone — the spec-side rendering: each
recognized token becomes `$` followed by the next index, `%` followed by
anything else becomes that character, everything else is copied. Runtime
values never appear. -/
def renderQ : List Char → Nat → List Char
  | '%' :: 'u' :: rest, n => dollarTok (n + 1) ++ renderQ rest (n + 1)
  | '%' :: 'p' :: rest, n => dollarTok (n + 1) ++ renderQ rest (n + 1)
  | '%' :: 's' :: rest, n => dollarTok (n + 1) ++ renderQ rest (n + 1)
  | '%' :: 'h' :: rest, n => dollarTok (n + 1) ++ renderQ rest (n + 1)
  | '%' :: 'i' :: rest, n => dollarTok (n + 1) ++ renderQ rest (n + 1)
  | '%' :: c :: rest, n => c :: renderQ rest n
  | ['%'], _ => []
  | c :: rest, n => c :: renderQ rest n
  | [], _ => []

/-- The bytes of a C string (the claims only involve ASCII data, where
code points and bytes coincide). -/
def strBytes (s : String) : List Nat :=
  s.data.map Char.toNat

/-- What `strlen` sees in a byte buffer: the bytes before the first NUL. -/
def cstrTake : List Nat → List Nat
  | [] => []
  | b :: rest => if b = 0 then [] else b :: cstrTake rest

/-- The RFC 4648 base64 alphabet, by 6-bit value. -/
def b64Char (n : Nat) : Char :=
  if n < 26 then Char.ofNat ('A'.toNat + n)
  else if n < 52 then Char.ofNat ('a'.toNat + (n - 26))
  else if n < 62 then Char.ofNat ('0'.toNat + (n - 52))
  else if n = 62 then '+'
  else '/'

/-- OpenSSL BIO base64 encoding as the C wrapper `base64_encode` delivers it:
standard RFC 4648 with `=` padding; the wrapper strips the newlines the BIO
inserts, so the result is the plain encoding (the input bytes are below
256). -/
def base64_encode : List Nat → List Char
  | [] => []
  | [a] => [b64Char (a / 4), b64Char (a % 4 * 16), '=', '=']
  | [a, b] => [b64Char (a / 4), b64Char (a % 4 * 16 + b / 16), b64Char (b % 16 * 4), '=']
  | a :: b :: c :: rest =>
      b64Char (a / 4) :: b64Char (a % 4 * 16 + b / 16) ::
      b64Char (b % 16 * 4 + c / 64) :: b64Char (c % 64) :: base64_encode rest

/-- The 6-bit value of a base64 character (0 for anything else, padding
included). -/
def b64Val (c : Char) : Nat :=
  if 'A' ≤ c ∧ c ≤ 'Z' then c.toNat - 'A'.toNat
  else if 'a' ≤ c ∧ c ≤ 'z' then c.toNat - 'a'.toNat + 26
  else if '0' ≤ c ∧ c ≤ '9' then c.toNat - '0'.toNat + 52
  else if c = '+' then 62
  else if c = '/' then 63
  else 0

/-- OpenSSL BIO base64 decoding as the C wrapper `base64_decode` uses it
(with BIO_FLAGS_BASE64_NO_NL): quartets of characters become byte triples,
shortened by `=` padding. -/
def base64_decode : List Char → List Nat
  | a :: b :: c :: d :: rest =>
      if c = '=' then [b64Val a * 4 + b64Val b / 16]
      else if d = '=' then [b64Val a * 4 + b64Val b / 16, b64Val b % 16 * 16 + b64Val c / 4]
      else (b64Val a * 4 + b64Val b / 16) :: (b64Val b % 16 * 16 + b64Val c / 4) ::
           (b64Val c % 4 * 64 + b64Val d) :: base64_decode rest
  | _ => []

/-- A lowercase hex digit, as `sprintf` `%x` prints one. -/
def hexChar (n : Nat) : Char :=
  if n < 10 then Char.ofNat ('0'.toNat + n)
  else Char.ofNat ('a'.toNat + (n - 10))

/-- `sprintf(&s[i*2], "%.2x", hash[i])` over a digest: two lowercase hex
digits per byte (digest bytes are below 256). -/
def bytesHex (l : List Nat) : List Char :=
  l.foldr (fun b acc => hexChar (b / 16) :: hexChar (b % 16) :: acc) []

/-- `i64c` of the C file: clamp to `.` below, map 1, 2..11, 12..37 and
38..62 into `/`, digits, uppercase and lowercase, and everything from 63 up
to `z`. -/
def i64c (i : Int) : Char :=
  if i ≤ 0 then '.'
  else if i = 1 then '/'
  else if 2 ≤ i ∧ i < 12 then Char.ofNat ('0'.toNat - 2 + i.toNat)
  else if 12 ≤ i ∧ i < 38 then Char.ofNat ('A'.toNat - 12 + i.toNat)
  else if 38 ≤ i ∧ i < 63 then Char.ofNat ('a'.toNat - 38 + i.toNat)
  else 'z'

/-- `crypt_makesalt`: 2 random characters for classic crypt, `$6$` plus 8
for CRYPT_SHA512, `$1$` plus 8 otherwise (the C's else branch, reached for
CRYPT_MD5). Each character is `i64c(random()&63)`; masking with 63 is
reduction mod 64, and the wall-clock seeding only selects which `random()`
stream `rand` denotes, so the stream is an argument. -/
def crypt_makesalt (scheme : pw_scheme) (rand : Nat → Nat) : List Char :=
  match scheme with
  | .PW_CRYPT => (List.range 2).map fun k => i64c ((rand k % 64 : Nat) : Int)
  | .PW_CRYPT_SHA512 => '$' :: '6' :: '$' :: ((List.range 8).map fun k => i64c ((rand k % 64 : Nat) : Int))
  | _ => '$' :: '1' :: '$' :: ((List.range 8).map fun k => i64c ((rand k % 64 : Nat) : Int))

/-- `calc_PBKDF2_HMAC_SHA256`: run `PKCS5_PBKDF2_HMAC` with the salt length
taken as `strlen` of the (binary) salt, into a `calloc`ed buffer of
`key_len` zero bytes, then — the decisive detail — base64-encode
`strlen(digest)` bytes of the binary digest, i.e. only up to its first NUL
byte. Allocation failure and `PKCS5_PBKDF2_HMAC` failure (paths that return
NULL) are not modelled. -/
def calc_PBKDF2_HMAC_SHA256 (ext : ExtFns) (passwd : String) (salt : List Nat)
    (n_iter key_len : Nat) : Option String :=
  let raw := ext.pbkdf2 (strBytes passwd) (cstrTake salt) n_iter key_len
  let digest := raw.take key_len ++ List.replicate (key_len - raw.length) 0
  some (String.mk (base64_encode (cstrTake digest)))

/-- `password_encrypt`: the scheme dispatch. The crypt family passes the
stored value as salt when present, else a generated salt. In the C source
`PW_CLEAR` and `PW_FUNCTION` are case labels that fall through into the
`PW_PBKDF2` branch, so all three take the PBKDF2 path; the `default:` arm
(`strdup(pass)`) is unreachable for the nine declared schemes. A NULL
`stored_salt` on the PBKDF2 path makes the C call `strlen(NULL)` (a crash);
that undefined behavior is modelled as failure, and no theorem below rests
on it. -/
def password_encrypt (ext : ExtFns) (options : modopt_t) (user pass : String)
    (salt stored_salt : Option String) : Option String :=
  match options.pw_type with
  | .PW_CRYPT | .PW_CRYPT_MD5 | .PW_CRYPT_SHA512 =>
      (match salt with
       | none => ext.crypt pass (String.mk (crypt_makesalt options.pw_type ext.rand))
       | some s => ext.crypt pass s)
  | .PW_MD5 => some (String.mk (bytesHex (ext.md5 (strBytes pass))))
  | .PW_MD5_POSTGRES => some ("md5" ++ String.mk (bytesHex (ext.md5 (strBytes (pass ++ user)))))
  | .PW_SHA1 => some (String.mk (bytesHex (ext.sha1 (strBytes pass))))
  | .PW_CLEAR | .PW_FUNCTION | .PW_PBKDF2 =>
      match stored_salt with
      | none => none
      | some ss => calc_PBKDF2_HMAC_SHA256 ext pass (base64_decode ss.data) 27500 64

/-- Whether one result row authenticates, per the loop body of
`backend_authenticate`: a SQL NULL first column is skipped; under
PW_FUNCTION the stored text is compared with "t"; otherwise
`password_encrypt` runs with the stored value as salt and the second column
(when not NULL) as stored salt, and the row matches on exact string
equality. -/
def rowMatch (ext : ExtFns) (options : modopt_t) (user passwd : String) (r : DbRow) : Bool :=
  match r.col0 with
  | none => false
  | some stored_pw =>
      if options.pw_type = .PW_FUNCTION then stored_pw == "t"
      else match password_encrypt ext options user passwd (some stored_pw) r.col1 with
           | some tmp => stored_pw == tmp
           | none => false

/-- The row loop of `backend_authenticate`: `rc` starts at PAM_AUTH_ERR and
the first matching row short-circuits to PAM_SUCCESS. -/
def authLoop (m : DbRow → Bool) : List DbRow → Outcome
  | [] => .authErr
  | r :: rest => if m r then .success else authLoop m rest

/-- `pg_execParam`: PAM_AUTHINFO_UNAVAIL without a connection, PAM_AUTH_ERR
when expansion leaves `command == NULL`, PAM_AUTHINFO_UNAVAIL when the
result status is neither COMMAND_OK nor TUPLES_OK, else PAM_SUCCESS with the
result rows. The resolved address `raddr` comes from the environment's
`dns` (`gethostbyname` + `inet_ntop`, NULL on failure). -/
def pg_execParam (db : DbEnv) (query : Option String)
    (service user passwd rhost : String) : Except Outcome (List DbRow) :=
  if db.conn = false then .error .authinfoUnavail
  else match expand_query ⟨service, user, passwd, rhost, db.dns⟩ query with
    | none => .error .authErr
    | some _ => match db.exec with
      | none => .error .authinfoUnavail
      | some rows => .ok rows

/-- `backend_authenticate`: a failed `db_connect` returns PAM_AUTH_ERR
directly; otherwise `rc` starts at PAM_AUTH_ERR and is only reassigned when
`pg_execParam` returns PAM_SUCCESS — any pg_execParam error code collapses
to PAM_AUTH_ERR. Zero rows give PAM_USER_UNKNOWN, else the row loop
decides. -/
def backend_authenticate (db : DbEnv) (ext : ExtFns)
    (service user passwd rhost : String) (options : modopt_t) : Outcome :=
  if db.conn = false then .authErr
  else match pg_execParam db options.query_auth service user passwd rhost with
    | .error _ => .authErr
    | .ok rows =>
        if rows.length = 0 then .userUnknown
        else authLoop (rowMatch ext options user passwd) rows

/-- Membership in the 64-symbol salt alphabet of `i64c`: dot, slash,
digits, uppercase and lowercase letters. -/
def isRadix64 (c : Char) : Bool :=
  c == '.' || c == '/' || (decide ('0' ≤ c) && decide (c ≤ '9')) ||
    (decide ('A' ≤ c) && decide (c ≤ 'Z')) || (decide ('a' ≤ c) && decide (c ≤ 'z'))

/-- A fixed interpretation of the external libraries, used to instantiate
environment-quantified theorems at concrete inputs. -/
def extDummy : ExtFns :=
  ⟨fun _ _ => none, fun _ => List.replicate 16 0, fun _ => List.replicate 20 0,
   fun _ _ _ _ => List.replicate 64 1, fun _ => 0⟩

/-- A template of ten consecutive `%h` tokens. -/
def tmplTenH : List Char :=
  List.flatten (List.replicate 10 ['%', 'h'])

/-- A template of 129 consecutive `%u` tokens — one more than the 128 slots
of `const char *values[128]` in `pg_execParam`. -/
def tmplManyU : List Char :=
  List.flatten (List.replicate 129 ['%', 'u'])

/-- Concrete substitution values with an unresolved, dot-free host. -/
def vHost : SubstVals :=
  ⟨"login", "user1", "pass1", "example", none⟩

/-- Concrete substitution values with user "alice". -/
def vAlice : SubstVals :=
  ⟨"login", "alice", "s3cret", "host", some "10.0.0.7"⟩

/-- Concrete substitution values with no resolved address and a dotted
host string. -/
def vDotHost : SubstVals :=
  ⟨"login", "alice", "pw", "db.example.org", none⟩

/-- Length of the query text the fill pass writes (0 when it aborts) — the
number of bytes placed in the `malloc(len + 1)` buffer before the
terminator. -/
def fillLen (v : SubstVals) (t : List Char) : Nat :=
  (expandFill v t 0).elim 0 fun qp => qp.1.length

/-- Number of `values[]` slots the fill pass writes (0 when it aborts). -/
def fillCount (v : SubstVals) (t : List Char) : Nat :=
  (expandFill v t 0).elim 0 fun qp => qp.2.length

/-- An external environment whose PBKDF2 output is a 64-byte key with a
zero byte at index 45 — the shape the real
PBKDF2-HMAC-SHA256("password", "salt001", 27500, 64) key has. -/
def extTruncDemo : ExtFns :=
  ⟨fun _ _ => none, fun _ => List.replicate 16 0, fun _ => List.replicate 20 0,
   fun _ _ _ _ => List.replicate 45 7 ++ 0 :: List.replicate 18 9, fun _ => 0⟩

example : expand_query ⟨"sv", "alice", "s3cret", "h", some "1.2.3.4"⟩ (some "%u %p") =
    some ("$1 $2".data, [some "alice", some "s3cret"]) := by decide

example : expandFill ⟨"sv", "alice", "s3cret", "a.b", none⟩ "x %i".data 0 = none := by decide

example : base64_encode [115, 97, 108, 116] = "c2FsdA==".data := by decide

example : base64_decode "c2FsdDAwMQ==".data = [115, 97, 108, 116, 48, 48, 49] := by decide

/-- A successful fill pass binds, in order, exactly the value of each
recognized token occurrence of the template. -/
theorem expandFill_params (v : SubstVals) (t : List Char) (n : Nat) :
    ∀ q ps, expandFill v t n = some (q, ps) → ps = (qtokens t).map (tokVal v) := by
  induction t, n using expandFill.induct v with
  | case1 rest n ih =>
      intro q ps h
      simp only [expandFill, Option.map_eq_some'] at h
      obtain ⟨⟨q', ps'⟩, hrec, heq⟩ := h
      cases heq
      simp only [qtokens, List.map_cons, tokVal]
      exact congrArg _ (ih _ _ hrec)
  | case2 rest n ih =>
      intro q ps h
      simp only [expandFill, Option.map_eq_some'] at h
      obtain ⟨⟨q', ps'⟩, hrec, heq⟩ := h
      cases heq
      simp only [qtokens, List.map_cons, tokVal]
      exact congrArg _ (ih _ _ hrec)
  | case3 rest n ih =>
      intro q ps h
      simp only [expandFill, Option.map_eq_some'] at h
      obtain ⟨⟨q', ps'⟩, hrec, heq⟩ := h
      cases heq
      simp only [qtokens, List.map_cons, tokVal]
      exact congrArg _ (ih _ _ hrec)
  | case4 rest n ih =>
      intro q ps h
      simp only [expandFill, Option.map_eq_some'] at h
      obtain ⟨⟨q', ps'⟩, hrec, heq⟩ := h
      cases heq
      simp only [qtokens, List.map_cons, tokVal]
      exact congrArg _ (ih _ _ hrec)
  | case5 rest n habort =>
      intro q ps h
      simp only [expandFill, if_pos habort] at h
      exact Option.noConfusion h
  | case6 rest n habort ih =>
      intro q ps h
      simp only [expandFill, if_neg habort, Option.map_eq_some'] at h
      obtain ⟨⟨q', ps'⟩, hrec, heq⟩ := h
      cases heq
      simp only [qtokens, List.map_cons, tokVal]
      exact congrArg _ (ih _ _ hrec)
  | case7 c rest n h1 h2 h3 h4 h5 ih1 =>
      intro q ps h
      simp only [expandFill, Option.map_eq_some'] at h
      obtain ⟨⟨q', ps'⟩, hrec, heq⟩ := h
      cases heq
      simp only [qtokens]
      exact ih1 _ _ hrec
  | case8 =>
      intro q ps h
      simp only [expandFill] at h
      cases h
      rfl
  | case9 c rest n h1 h2 h3 h4 h5 h6 h7 ih =>
      intro q ps h
      simp only [expandFill, Option.map_eq_some'] at h
      obtain ⟨⟨q', ps'⟩, hrec, heq⟩ := h
      cases heq
      simp only [qtokens]
      exact ih _ _ hrec
  | case10 =>
      intro q ps h
      simp only [expandFill] at h
      cases h
      rfl

/-- With a resolved address available the fill pass never aborts. -/
theorem expandFill_isSome_of_raddr (v : SubstVals) (a : String) (hr : v.raddr = some a)
    (t : List Char) (n : Nat) : (expandFill v t n).isSome = true := by
  induction t, n using expandFill.induct v with
  | case1 rest n ih => simpa only [expandFill, Option.isSome_map'] using ih
  | case2 rest n ih => simpa only [expandFill, Option.isSome_map'] using ih
  | case3 rest n ih => simpa only [expandFill, Option.isSome_map'] using ih
  | case4 rest n ih => simpa only [expandFill, Option.isSome_map'] using ih
  | case5 rest n habort =>
      rw [hr] at habort
      exact absurd habort.1 (by simp)
  | case6 rest n habort ih =>
      simpa only [expandFill, if_neg habort, Option.isSome_map'] using ih
  | case7 c rest n h1 h2 h3 h4 h5 ih1 =>
      simpa only [expandFill, Option.isSome_map'] using ih1
  | case8 => rfl
  | case9 c rest n h1 h2 h3 h4 h5 h6 h7 ih =>
      simpa only [expandFill, Option.isSome_map'] using ih
  | case10 => rfl

/-- Without a resolved address, when the host string contains a dot, any
template with a recognized `%i` token makes the fill pass abort. -/
theorem expandFill_none_of_ti (v : SubstVals) (hr : v.raddr = none)
    (hd : '.' ∈ v.rhost.data) (t : List Char) (n : Nat) :
    QTok.ti ∈ qtokens t → expandFill v t n = none := by
  induction t, n using expandFill.induct v with
  | case1 rest n ih =>
      intro ht
      simp only [qtokens, List.mem_cons] at ht
      rcases ht with h | ht
      · exact absurd h (by decide)
      · simp only [expandFill, ih ht, Option.map_none']
  | case2 rest n ih =>
      intro ht
      simp only [qtokens, List.mem_cons] at ht
      rcases ht with h | ht
      · exact absurd h (by decide)
      · simp only [expandFill, ih ht, Option.map_none']
  | case3 rest n ih =>
      intro ht
      simp only [qtokens, List.mem_cons] at ht
      rcases ht with h | ht
      · exact absurd h (by decide)
      · simp only [expandFill, ih ht, Option.map_none']
  | case4 rest n ih =>
      intro ht
      simp only [qtokens, List.mem_cons] at ht
      rcases ht with h | ht
      · exact absurd h (by decide)
      · simp only [expandFill, ih ht, Option.map_none']
  | case5 rest n habort =>
      intro _
      simp only [expandFill, if_pos habort]
  | case6 rest n habort ih =>
      intro _
      exact absurd ⟨hr, hd⟩ habort
  | case7 c rest n h1 h2 h3 h4 h5 ih1 =>
      intro ht
      simp only [qtokens] at ht
      simp only [expandFill, ih1 ht, Option.map_none']
  | case8 =>
      intro ht
      simp only [qtokens, List.not_mem_nil] at ht
  | case9 c rest n h1 h2 h3 h4 h5 h6 h7 ih =>
      intro ht
      simp only [qtokens] at ht
      simp only [expandFill, ih ht, Option.map_none']
  | case10 =>
      intro ht
      simp only [qtokens, List.not_mem_nil] at ht

/-- A `%` followed by a character outside the recognized token set drops the
`%` and copies only that character — literally the `default:` (and `case
'%':`) arm of the fill pass's switch. -/
theorem expandFill_other (v : SubstVals) (n : Nat) (c : Char) (rest : List Char)
    (h1 : c = 'u' → False) (h2 : c = 'p' → False) (h3 : c = 's' → False)
    (h4 : c = 'h' → False) (h5 : c = 'i' → False) :
    expandFill v ('%' :: c :: rest) n =
      (expandFill v rest n).map fun qp => (c :: qp.1, qp.2) := by
  simp only [expandFill]

/-- The query text a successful fill pass produces depends only on the
template and the starting counter, never on the runtime values: it is the
spec-side rendering `renderQ`. -/
theorem expandFill_query_renderQ (v : SubstVals) (t : List Char) (n : Nat) :
    ∀ q ps, expandFill v t n = some (q, ps) → q = renderQ t n := by
  induction t, n using expandFill.induct v with
  | case1 rest n ih =>
      intro q ps h
      simp only [expandFill, Option.map_eq_some'] at h
      obtain ⟨⟨q', ps'⟩, hrec, heq⟩ := h
      cases heq
      simp only [renderQ]
      exact congrArg _ (ih _ _ hrec)
  | case2 rest n ih =>
      intro q ps h
      simp only [expandFill, Option.map_eq_some'] at h
      obtain ⟨⟨q', ps'⟩, hrec, heq⟩ := h
      cases heq
      simp only [renderQ]
      exact congrArg _ (ih _ _ hrec)
  | case3 rest n ih =>
      intro q ps h
      simp only [expandFill, Option.map_eq_some'] at h
      obtain ⟨⟨q', ps'⟩, hrec, heq⟩ := h
      cases heq
      simp only [renderQ]
      exact congrArg _ (ih _ _ hrec)
  | case4 rest n ih =>
      intro q ps h
      simp only [expandFill, Option.map_eq_some'] at h
      obtain ⟨⟨q', ps'⟩, hrec, heq⟩ := h
      cases heq
      simp only [renderQ]
      exact congrArg _ (ih _ _ hrec)
  | case5 rest n habort =>
      intro q ps h
      simp only [expandFill, if_pos habort] at h
      exact Option.noConfusion h
  | case6 rest n habort ih =>
      intro q ps h
      simp only [expandFill, if_neg habort, Option.map_eq_some'] at h
      obtain ⟨⟨q', ps'⟩, hrec, heq⟩ := h
      cases heq
      simp only [renderQ]
      exact congrArg _ (ih _ _ hrec)
  | case7 c rest n h1 h2 h3 h4 h5 ih1 =>
      intro q ps h
      simp only [expandFill, Option.map_eq_some'] at h
      obtain ⟨⟨q', ps'⟩, hrec, heq⟩ := h
      cases heq
      simp only [renderQ]
      exact congrArg _ (ih1 _ _ hrec)
  | case8 =>
      intro q ps h
      simp only [expandFill] at h
      cases h
      rfl
  | case9 c rest n h1 h2 h3 h4 h5 h6 h7 ih =>
      intro q ps h
      simp only [expandFill, Option.map_eq_some'] at h
      obtain ⟨⟨q', ps'⟩, hrec, heq⟩ := h
      cases heq
      simp only [renderQ]
      exact congrArg _ (ih _ _ hrec)
  | case10 =>
      intro q ps h
      simp only [expandFill] at h
      cases h
      rfl

/-- Base64 encoding of `m` bytes always has length `4 * ceil(m / 3)` — in
particular a multiple of 4. -/
theorem base64_encode_length (l : List Nat) :
    (base64_encode l).length = 4 * ((l.length + 2) / 3) := by
  induction l using base64_encode.induct with
  | case1 => rfl
  | case2 a => simp [base64_encode]
  | case3 a b => simp [base64_encode]
  | case4 a b c rest ih =>
      simp only [base64_encode, List.length_cons, ih]
      omega

/-- A zero byte at position `k` bounds what `strlen` sees by `k`. -/
theorem cstrTake_length_le (l : List Nat) :
    ∀ k, l.get? k = some 0 → (cstrTake l).length ≤ k := by
  induction l with
  | nil =>
      intro k h
      simp at h
  | cons b rest ih =>
      intro k h
      cases k with
      | zero =>
          simp only [List.get?, Option.some.injEq] at h
          simp [cstrTake, h]
      | succ k =>
          simp only [List.get?] at h
          by_cases hb : b = 0
          · simp [cstrTake, hb]
          · simp only [cstrTake, if_neg hb, List.length_cons]
            exact Nat.succ_le_succ (ih k h)

/-- Every value `random() & 63` can take maps under `i64c` into the
64-symbol salt alphabet. -/
theorem i64c_radix64 : ∀ m : Nat, m < 64 → isRadix64 (i64c (m : Int)) = true := by
  decide

/-- When no row matches, the row loop keeps `rc` at PAM_AUTH_ERR. -/
theorem authLoop_authErr (m : DbRow → Bool) :
    ∀ rows : List DbRow, (∀ r ∈ rows, m r = false) → authLoop m rows = .authErr := by
  intro rows
  induction rows with
  | nil => intro _; rfl
  | cons r rest ih =>
      intro h
      have hr := h r (List.mem_cons_self r rest)
      simp only [authLoop, hr, Bool.false_eq_true, if_false]
      exact ih fun r' hr' => h r' (List.mem_cons_of_mem r hr')

/-- PAM_SUCCESS out of the row loop names a matching row. -/
theorem authLoop_success (m : DbRow → Bool) :
    ∀ rows : List DbRow, authLoop m rows = .success → ∃ r ∈ rows, m r = true := by
  intro rows
  induction rows with
  | nil =>
      intro h
      simp only [authLoop] at h
      exact Outcome.noConfusion h
  | cons r rest ih =>
      intro h
      by_cases hm : m r
      · exact ⟨r, List.mem_cons_self r rest, hm⟩
      · simp only [authLoop, if_neg hm] at h
        obtain ⟨r', hr', hm'⟩ := ih h
        exact ⟨r', List.mem_cons_of_mem r hr', hm'⟩

/-- `pg_execParam` hands back rows only straight from the store. -/
theorem pg_execParam_ok (db : DbEnv) (qy : Option String) (s u p h : String)
    (rows : List DbRow) (hpg : pg_execParam db qy s u p h = .ok rows) :
    db.exec = some rows := by
  unfold pg_execParam at hpg
  by_cases hc : db.conn = false
  · rw [if_pos hc] at hpg
    exact Except.noConfusion hpg
  · rw [if_neg hc] at hpg
    rcases hex : expand_query ⟨s, u, p, h, db.dns⟩ qy with _ | qp
    · rw [hex] at hpg
      exact Except.noConfusion hpg
    · rw [hex] at hpg
      rcases hdb : db.exec with _ | rows'
      · rw [hdb] at hpg
        exact Except.noConfusion hpg
      · rw [hdb] at hpg
        injection hpg with h'
        rw [h']

/-- A row whose first column is SQL NULL never matches (the loop body is
skipped before any comparison). -/
theorem rowMatch_col0_none (ext : ExtFns) (options : modopt_t) (user passwd : String)
    (r : DbRow) (h : r.col0 = none) : rowMatch ext options user passwd r = false := by
  unfold rowMatch
  rw [h]

set_option maxRecDepth 8192 in
/-- Claim C3 (refuted — code bug): the single linear pre-scan is NOT always
at least the length the fill pass writes. The scan recognizes only `%u`,
`%p`, `%s` and `%%`; a `%h` (or `%i`) token is counted as 2 plain bytes, yet
the fill pass writes `$10` (3 bytes) for it once the placeholder index
reaches two digits. For ten `%h` tokens the scan reserves 20 bytes while the
fill pass writes 21 into the `malloc(len + 1) = 21`-byte buffer — plus the
terminator, one past the end. -/
theorem expand_prescan_underestimates_fill :
    (expandFill vHost tmplTenH 0).isSome = true ∧
    scanLen tmplTenH = 20 ∧ fillLen vHost tmplTenH = 21 ∧
    scanLen tmplTenH < fillLen vHost tmplTenH := by
  decide

set_option maxRecDepth 65536 in
/-- Claim C8 (refuted — code bug): expansion of a template with more than
128 recognized tokens neither fails nor stops: 129 `%u` tokens complete
successfully and bind 129 parameters, so the fill pass has written
`values[128]`, one slot past the 128-entry array of `pg_execParam`. -/
theorem expand_binds_beyond_128_params :
    (expandFill vHost tmplManyU 0).isSome = true ∧
    fillCount vHost tmplManyU = 129 ∧ 128 < fillCount vHost tmplManyU := by
  decide

/-- Claim C9: every salt `crypt_makesalt` generates for CRYPT_SHA512 has
length exactly 11, starts with the prefix `$6$`, and its remaining 8
characters lie in the 64-symbol alphabet dot, slash, digits, uppercase,
lowercase. -/
theorem crypt_sha512_salt_format (rand : Nat → Nat) :
    (crypt_makesalt .PW_CRYPT_SHA512 rand).length = 11 ∧
    (crypt_makesalt .PW_CRYPT_SHA512 rand).take 3 = "$6$".data ∧
    ((crypt_makesalt .PW_CRYPT_SHA512 rand).drop 3).all isRadix64 = true := by
  refine ⟨by simp [crypt_makesalt], rfl, ?_⟩
  show ((List.range 8).map fun k => i64c ((rand k % 64 : Nat) : Int)).all isRadix64 = true
  rw [List.all_eq_true]
  intro c hc
  simp only [List.mem_map, List.mem_range] at hc
  obtain ⟨k, hk, rfl⟩ := hc
  exact i64c_radix64 _ (Nat.mod_lt _ (by norm_num))

/-- Claim C5: placeholder indices are assigned in strict first-seen order
starting at 1, every token occurrence — repeats included — binds a new slot
holding that token's value, and the query text is the value-independent
rendering `renderQ` (runtime values are never concatenated into it); in
particular template "%u %u" yields two bound parameters, both the user. -/
theorem expand_param_first_seen_order :
    (∀ v t n q ps, expandFill v t n = some (q, ps) →
        ps = (qtokens t).map (tokVal v) ∧ q = renderQ t n) ∧
    expand_query vAlice (some "%u %u") =
      some ("$1 $2".data, [some "alice", some "alice"]) :=
  ⟨fun v t n q ps h =>
    ⟨expandFill_params v t n q ps h, expandFill_query_renderQ v t n q ps h⟩,
   by decide⟩

/-- Witness for C5: the general part instantiated at template "%u %u". -/
theorem expand_param_first_seen_order_witness :
    ([some "alice", some "alice"] : List (Option String)) =
        (qtokens "%u %u".data).map (tokVal vAlice) ∧
    "$1 $2".data = renderQ "%u %u".data 0 :=
  expand_param_first_seen_order.1 vAlice "%u %u".data 0 "$1 $2".data
    [some "alice", some "alice"] (by decide)

/-- Claim C4: a template with a recognized `%i` token, no resolved address
and a dot in the literal host string makes `expand_query` fail with a NULL
command and no partial query; with a resolved address available, expansion
never aborts and every `%i` occurrence binds exactly that address. -/
theorem expand_ambiguous_host_heuristic :
    (∀ v t n, v.raddr = none → '.' ∈ v.rhost.data → QTok.ti ∈ qtokens t →
        expandFill v t n = none) ∧
    (∀ v a t n, v.raddr = some a →
        ∃ q ps, expandFill v t n = some (q, ps) ∧
          ∀ k, (qtokens t).get? k = some QTok.ti → ps.get? k = some (some a)) := by
  constructor
  · exact fun v t n hr hd ht => expandFill_none_of_ti v hr hd t n ht
  · intro v a t n hr
    obtain ⟨⟨q, ps⟩, hqp⟩ :=
      Option.isSome_iff_exists.mp (expandFill_isSome_of_raddr v a hr t n)
    refine ⟨q, ps, hqp, ?_⟩
    intro k hk
    rw [expandFill_params v t n q ps hqp, List.get?_map, hk]
    simp [tokVal, hr]

/-- Witness for C4: template "%i", unresolved address, host
"db.example.org" — expansion aborts; and with a resolved address the same
template binds it. -/
theorem expand_ambiguous_host_heuristic_witness :
    expandFill vDotHost ['%', 'i'] 0 = none ∧
    (∃ q ps, expandFill vAlice ['%', 'i'] 0 = some (q, ps) ∧
      ∀ k, (qtokens ['%', 'i']).get? k = some QTok.ti →
        ps.get? k = some (some "10.0.0.7")) :=
  ⟨expand_ambiguous_host_heuristic.1 vDotHost ['%', 'i'] 0 rfl (by decide) (by decide),
   expand_ambiguous_host_heuristic.2 vAlice "10.0.0.7" ['%', 'i'] 0 rfl⟩

/-- Claim C6: `%` followed by any character outside the recognized set
drops the `%` and copies only that character — so `%%` yields a literal
percent — and a template made only of `%%` sequences expands to the literal
percents with zero bound parameters. -/
theorem expand_unrecognized_percent_fallback :
    (∀ v n c rest, c ∉ (['u', 'p', 's', 'h', 'i'] : List Char) →
        expandFill v ('%' :: c :: rest) n =
          (expandFill v rest n).map fun qp => (c :: qp.1, qp.2)) ∧
    (∀ v n k, expandFill v (List.flatten (List.replicate k ['%', '%'])) n =
        some (List.replicate k '%', [])) := by
  constructor
  · intro v n c rest hc
    simp only [List.mem_cons, List.not_mem_nil, or_false, not_or] at hc
    obtain ⟨h1, h2, h3, h4, h5⟩ := hc
    exact expandFill_other v n c rest h1 h2 h3 h4 h5
  · intro v n k
    induction k generalizing n with
    | zero => rfl
    | succ k ih =>
        rw [List.replicate_succ, List.flatten_cons]
        show expandFill v ('%' :: '%' :: List.flatten (List.replicate k ['%', '%'])) n = _
        rw [expandFill_other v n '%' _ (by decide) (by decide) (by decide) (by decide)
          (by decide), ih]
        rfl

/-- Witness for C6: the fallback applied at `%x`, and two `%%` sequences
expanding to two literal percents with no parameters. -/
theorem expand_unrecognized_percent_fallback_witness :
    expandFill vAlice ('%' :: 'x' :: "abc".data) 0 =
      (expandFill vAlice "abc".data 0).map (fun qp => ('x' :: qp.1, qp.2)) ∧
    expandFill vAlice (List.flatten (List.replicate 2 ['%', '%'])) 0 =
      some (List.replicate 2 '%', []) :=
  ⟨expand_unrecognized_percent_fallback.1 vAlice 0 'x' "abc".data (by decide),
   expand_unrecognized_percent_fallback.2 vAlice 0 2⟩

/-- Claim C1 (refuted — code bug): under the CLEAR scheme `password_encrypt`
does NOT return the cleartext: in the C switch `case PW_CLEAR:` falls
through into the PBKDF2 branch, whose result is a base64 string of length
divisible by 4 — never equal to the 3-character password "abc" — so a row
storing the exact cleartext fails to authenticate. -/
theorem clear_scheme_not_cleartext :
    (∀ (ext : ExtFns) (u st ss : String),
        password_encrypt ext ⟨.PW_CLEAR, none⟩ u "abc" (some st) (some ss) ≠ some "abc") ∧
    backend_authenticate ⟨true, none, some [⟨some "abc", some "c2FsdA=="⟩]⟩ extDummy
      "login" "alice" "abc" "host" ⟨.PW_CLEAR, some "select"⟩ = .authErr := by
  constructor
  · intro ext u st ss h
    simp only [password_encrypt, calc_PBKDF2_HMAC_SHA256, Option.some.injEq] at h
    have hdata := congrArg String.data h
    have hlen := congrArg List.length hdata
    rw [base64_encode_length] at hlen
    have h3 : ("abc" : String).data.length = 3 := rfl
    rw [h3] at hlen
    omega
  · decide

/-- Claim C7 (refuted — code bug): `calc_PBKDF2_HMAC_SHA256` does not
base64-encode the full 64-byte derived key: it passes `strlen(digest)` to
the encoder, so the binary key is truncated at its first zero byte. With a
zero byte at index 45 — which the real key for password "password" and
stored salt "c2FsdDAwMQ==" (bytes "salt001") at 27500 iterations has — the
returned encoding is strictly shorter than the 88-character encoding of the
full 64-byte key. -/
theorem pbkdf2_encodes_strlen_truncated_key (ext : ExtFns) (pass : String) (salt : List Nat)
    (h64 : (ext.pbkdf2 (strBytes pass) (cstrTake salt) 27500 64).length = 64)
    (hz : (ext.pbkdf2 (strBytes pass) (cstrTake salt) 27500 64).get? 45 = some 0) :
    ∃ out, calc_PBKDF2_HMAC_SHA256 ext pass salt 27500 64 = some out ∧
      out.data.length <
        (base64_encode (ext.pbkdf2 (strBytes pass) (cstrTake salt) 27500 64)).length := by
  simp only [calc_PBKDF2_HMAC_SHA256]
  have htake : (ext.pbkdf2 (strBytes pass) (cstrTake salt) 27500 64).take 64 ++
      List.replicate (64 - (ext.pbkdf2 (strBytes pass) (cstrTake salt) 27500 64).length) 0 =
      ext.pbkdf2 (strBytes pass) (cstrTake salt) 27500 64 := by
    rw [List.take_of_length_le (le_of_eq h64), h64, Nat.sub_self]
    simp
  rw [htake]
  refine ⟨_, rfl, ?_⟩
  show (base64_encode (cstrTake (ext.pbkdf2 (strBytes pass) (cstrTake salt) 27500 64))).length < _
  have hm := cstrTake_length_le (ext.pbkdf2 (strBytes pass) (cstrTake salt) 27500 64) 45 hz
  rw [base64_encode_length, base64_encode_length, h64]
  have h1 : ((cstrTake (ext.pbkdf2 (strBytes pass) (cstrTake salt) 27500 64)).length + 2) / 3
      ≤ 15 := by
    calc ((cstrTake (ext.pbkdf2 (strBytes pass) (cstrTake salt) 27500 64)).length + 2) / 3
        ≤ 47 / 3 := Nat.div_le_div_right (by omega)
    _ = 15 := rfl
  norm_num
  omega

/-- Witness for C7: an external environment whose derived key is 64 bytes
with a zero byte at index 45, at the real failing password and salt. -/
theorem pbkdf2_encodes_strlen_truncated_key_witness :
    ∃ out, calc_PBKDF2_HMAC_SHA256 extTruncDemo "password"
        (base64_decode "c2FsdDAwMQ==".data) 27500 64 = some out ∧
      out.data.length <
        (base64_encode (extTruncDemo.pbkdf2 (strBytes "password")
          (cstrTake (base64_decode "c2FsdDAwMQ==".data)) 27500 64)).length :=
  pbkdf2_encodes_strlen_truncated_key extTruncDemo "password"
    (base64_decode "c2FsdDAwMQ==".data) (by decide) (by decide)

/-- Counterexample to Claim C2 as stated: with the store unreachable
(`db_connect` fails), `backend_authenticate` returns PAM_AUTH_ERR — line
269 of the C file, `return PAM_AUTH_ERR` — not PAM_AUTHINFO_UNAVAIL. -/
theorem backend_connect_failure_returns_authErr :
    backend_authenticate ⟨false, none, none⟩ extDummy "login" "alice" "pw" "host"
      ⟨.PW_MD5, some "select password from users where login = %u"⟩ = .authErr ∧
    Outcome.authErr ≠ Outcome.authinfoUnavail :=
  ⟨rfl, by decide⟩

/-- Claim C2 (corrected): zero rows yield USER_UNKNOWN and rows with no
match yield AUTH_ERR, but both a connection failure and a query-execution
failure surface from `backend_authenticate` as AUTH_ERR: `pg_execParam`
itself reports PAM_AUTHINFO_UNAVAIL, and `backend_authenticate` collapses
any non-SUCCESS code to its initial `rc = PAM_AUTH_ERR`. -/
theorem backend_outcome_cases :
    (∀ db ext s u p h o, db.conn = false →
        backend_authenticate db ext s u p h o = .authErr) ∧
    (∀ dns ext s u p h o,
        backend_authenticate ⟨true, dns, none⟩ ext s u p h o = .authErr) ∧
    (∀ dns ext s u p h (o : modopt_t) qp,
        expand_query ⟨s, u, p, h, dns⟩ o.query_auth = some qp →
        backend_authenticate ⟨true, dns, some []⟩ ext s u p h o = .userUnknown) ∧
    (∀ dns ext s u p h (o : modopt_t) rows qp,
        expand_query ⟨s, u, p, h, dns⟩ o.query_auth = some qp →
        rows ≠ [] → (∀ r ∈ rows, rowMatch ext o u p r = false) →
        backend_authenticate ⟨true, dns, some rows⟩ ext s u p h o = .authErr) := by
  refine ⟨?_, ?_, ?_, ?_⟩
  · intro db ext s u p h o hc
    simp [backend_authenticate, hc]
  · intro dns ext s u p h o
    unfold backend_authenticate
    rw [if_neg (by simp)]
    rcases hpg : pg_execParam ⟨true, dns, none⟩ o.query_auth s u p h with e | rows
    · rfl
    · exact absurd (pg_execParam_ok _ _ _ _ _ _ _ hpg) (by simp)
  · intro dns ext s u p h o qp hex
    simp [backend_authenticate, pg_execParam, hex]
  · intro dns ext s u p h o rows qp hex hne hnm
    simp only [backend_authenticate, pg_execParam]
    rw [if_neg (by simp), if_neg (by simp), hex]
    simp only []
    rw [if_neg (fun h0 => hne (List.length_eq_zero.mp h0))]
    exact authLoop_authErr _ rows hnm

/-- Witness for C2 (corrected): all four outcomes at concrete inputs. -/
theorem backend_outcome_cases_witness :
    backend_authenticate ⟨false, none, none⟩ extDummy "s" "u" "p" "h"
      ⟨.PW_FUNCTION, some "q"⟩ = .authErr ∧
    backend_authenticate ⟨true, none, none⟩ extDummy "s" "u" "p" "h"
      ⟨.PW_FUNCTION, some "q"⟩ = .authErr ∧
    backend_authenticate ⟨true, none, some []⟩ extDummy "s" "u" "p" "h"
      ⟨.PW_FUNCTION, some "q"⟩ = .userUnknown ∧
    backend_authenticate ⟨true, none, some [⟨some "f", none⟩]⟩ extDummy "s" "u" "p" "h"
      ⟨.PW_FUNCTION, some "q"⟩ = .authErr :=
  ⟨backend_outcome_cases.1 ⟨false, none, none⟩ extDummy "s" "u" "p" "h"
      ⟨.PW_FUNCTION, some "q"⟩ rfl,
   backend_outcome_cases.2.1 none extDummy "s" "u" "p" "h" ⟨.PW_FUNCTION, some "q"⟩,
   backend_outcome_cases.2.2.1 none extDummy "s" "u" "p" "h" ⟨.PW_FUNCTION, some "q"⟩
      ("q".data, ([] : List (Option String))) (by decide),
   backend_outcome_cases.2.2.2 none extDummy "s" "u" "p" "h" ⟨.PW_FUNCTION, some "q"⟩
      [⟨some "f", none⟩] ("q".data, ([] : List (Option String)))
      (by decide) (by decide) (by decide)⟩

/-- Claim C10: a result row whose first column is SQL NULL is skipped —
it can never match, so PAM_SUCCESS requires some row with a non-NULL first
column — and one or more rows that are all NULL in the first column yield
PAM_AUTH_ERR, not PAM_USER_UNKNOWN. -/
theorem null_rows_skipped :
    (∀ ext o u p rows, (∀ r ∈ rows, r.col0 = none) →
        authLoop (rowMatch ext o u p) rows = .authErr) ∧
    (∀ dns ext s u p h (o : modopt_t) rows, rows ≠ [] →
        (∀ r ∈ rows, r.col0 = none) →
        backend_authenticate ⟨true, dns, some rows⟩ ext s u p h o = .authErr) ∧
    (∀ db ext s u p h o, backend_authenticate db ext s u p h o = .success →
        ∃ rows r, db.exec = some rows ∧ r ∈ rows ∧ r.col0 ≠ none) := by
  refine ⟨?_, ?_, ?_⟩
  · intro ext o u p rows hnull
    exact authLoop_authErr _ rows fun r hr => rowMatch_col0_none ext o u p r (hnull r hr)
  · intro dns ext s u p h o rows hne hnull
    unfold backend_authenticate
    rw [if_neg (by simp)]
    rcases hpg : pg_execParam ⟨true, dns, some rows⟩ o.query_auth s u p h with e | rows'
    · rfl
    · have hrows : rows = rows' := by
        have hsome : some rows = some rows' := pg_execParam_ok _ _ _ _ _ _ _ hpg
        injection hsome
      subst hrows
      show (if rows.length = 0 then Outcome.userUnknown
        else authLoop (rowMatch ext o u p) rows) = Outcome.authErr
      rw [if_neg (fun h0 => hne (List.length_eq_zero.mp h0))]
      exact authLoop_authErr _ rows fun r hr => rowMatch_col0_none ext o u p r (hnull r hr)
  · intro db ext s u p h o hs
    unfold backend_authenticate at hs
    by_cases hc : db.conn = false
    · rw [if_pos hc] at hs
      exact Outcome.noConfusion hs
    · rw [if_neg hc] at hs
      rcases hpg : pg_execParam db o.query_auth s u p h with e | rows
      · rw [hpg] at hs
        exact Outcome.noConfusion hs
      · rw [hpg] at hs
        replace hs : (if rows.length = 0 then Outcome.userUnknown
            else authLoop (rowMatch ext o u p) rows) = Outcome.success := hs
        by_cases hz : rows.length = 0
        · rw [if_pos hz] at hs
          exact Outcome.noConfusion hs
        · rw [if_neg hz] at hs
          obtain ⟨r, hr, hm⟩ := authLoop_success _ rows hs
          refine ⟨rows, r, pg_execParam_ok _ _ _ _ _ _ _ hpg, hr, ?_⟩
          intro h0
          rw [rowMatch_col0_none ext o u p r h0] at hm
          exact Bool.noConfusion hm

/-- Witness for C10: one all-NULL row gives AUTH_ERR, and a PAM_SUCCESS run
names its non-NULL row. -/
theorem null_rows_skipped_witness :
    authLoop (rowMatch extDummy ⟨.PW_FUNCTION, some "q"⟩ "u" "p") [⟨none, none⟩] = .authErr ∧
    backend_authenticate ⟨true, none, some [⟨none, none⟩]⟩ extDummy "s" "u" "p" "h"
      ⟨.PW_FUNCTION, some "q"⟩ = .authErr ∧
    (∃ rows r, (⟨true, none, some [⟨some "t", none⟩]⟩ : DbEnv).exec = some rows ∧
      r ∈ rows ∧ r.col0 ≠ none) :=
  ⟨null_rows_skipped.1 extDummy ⟨.PW_FUNCTION, some "q"⟩ "u" "p" [⟨none, none⟩] (by decide),
   null_rows_skipped.2.1 none extDummy "s" "u" "p" "h" ⟨.PW_FUNCTION, some "q"⟩
      [⟨none, none⟩] (by decide) (by decide),
   null_rows_skipped.2.2 ⟨true, none, some [⟨some "t", none⟩]⟩ extDummy "s" "u" "p" "h"
      ⟨.PW_FUNCTION, some "q"⟩ (by decide)⟩
